import Mathlib

/-!
Shallow embedding of the au-pair marketplace backend core:
the match scorer (`calculateMatchScore` and its sub-score functions,
from `backend/src/utils/matching.ts`), the ranking operation
(`findMatches`), and the booking conflict checker and creation
validations (from `backend/src/routes/bookings.ts`).

Conventions of the embedding:
* JS numbers are modelled as exact rationals (`ℚ`); instants
  (`Date` values) as integer milliseconds since the epoch (`Int`).
* JS `Math.round` rounds half toward positive infinity.
* Optional / possibly-`undefined` fields become `Option`; the JS
  falsiness check `!x` on a number is explicit: it also fires on `0`.
* `String.prototype.toLowerCase` is modelled character-wise (ASCII).
-/

/-- JS `Math.round`: round to nearest integer, half toward `+∞`. -/
def jsRound (q : ℚ) : ℤ := ⌊q + 1/2⌋

/-- JS `String.prototype.toLowerCase`, character-wise (ASCII range). -/
def jsToLower (s : String) : String := ⟨s.data.map Char.toLower⟩

/-- Candidate (au pair) profile fields read by the scorer. -/
structure AuPairProfile where
  languages : List String
  preferredCountries : List String
  dateOfBirth : Option Int
  availableFrom : Option Int
  availableTo : Option Int
  hourlyRate : Option ℚ

/-- Counterparty (host family) preference fields read by the scorer. -/
structure HostFamilyProfile where
  preferredLanguages : List String
  country : String
  childrenAges : List Int
  maxBudget : Option ℚ

/-- Embedding of `calculateLanguageMatch` from the source: if the host
has no preferred languages the sub-score is 100; otherwise it is the
number of candidate languages case-insensitively matching some
preferred language, divided by the number of preferred languages,
times 100. -/
def calculateLanguageMatch (auPairLangs hostPreferredLangs : List String) : ℚ :=
  if hostPreferredLangs.length = 0 then 100
  else
    let commonLanguages := auPairLangs.filter fun lang =>
      hostPreferredLangs.any fun preferred => jsToLower preferred == jsToLower lang
    ((commonLanguages.length : ℚ) / (hostPreferredLangs.length : ℚ)) * 100

/-- Milliseconds in a year as used by the source: 365.25·24·60·60·1000. -/
def msPerYear : ℚ := 31557600000

/-- Milliseconds in a day: 1000·60·60·24. -/
def msPerDay : ℚ := 86400000

/-- Embedding of `calculateAgeMatch` from the source.  The age is
`Math.floor((now - birth) / (365.25·24·60·60·1000))`. -/
def calculateAgeMatch (auPairBirthDate : Option Int) (childrenAges : List Int)
    (now : Int) : ℚ :=
  match auPairBirthDate with
  | none => 50
  | some birth =>
    if childrenAges.length = 0 then 50
    else
      let auPairAge : ℤ := ⌊((now - birth : ℤ) : ℚ) / msPerYear⌋
      let hasYoungChildren := childrenAges.any fun age => age ≤ 10
      let hasTeens := childrenAges.any fun age => age ≥ 11
      if hasYoungChildren = true ∧ 18 ≤ auPairAge ∧ auPairAge ≤ 30 then 100
      else if hasTeens = true ∧ 20 ≤ auPairAge ∧ auPairAge ≤ 35 then 100
      else if 18 ≤ auPairAge ∧ auPairAge ≤ 35 then 70
      else 30

/-- Embedding of `calculateAvailabilityMatch` from the source. -/
def calculateAvailabilityMatch (auPairFrom auPairTo hostPreferredStart : Option Int) : ℚ :=
  match auPairFrom, auPairTo, hostPreferredStart with
  | some fromDate, some toDate, some start =>
    if fromDate ≤ start ∧ start ≤ toDate then 100
    else
      let daysDiff : ℚ := |((start - fromDate : ℤ) : ℚ)| / msPerDay
      if daysDiff ≤ 30 then 80
      else if daysDiff ≤ 90 then 60
      else if daysDiff ≤ 180 then 30
      else 10
  | _, _, _ => 50

/-- Embedding of `calculateBudgetMatch` from the source.  The guard
`!auPairRate || !hostBudget` is JS falsiness: it fires when a field is
absent and also when its numeric value is `0`. -/
def calculateBudgetMatch (auPairRate hostBudget : Option ℚ) : ℚ :=
  match auPairRate, hostBudget with
  | some rate, some budget =>
    if rate = 0 ∨ budget = 0 then 50
    else if rate ≤ budget then 100
    else
      let overBudgetRatio := rate / budget
      if overBudgetRatio ≤ 12/10 then 70
      else if overBudgetRatio ≤ 15/10 then 40
      else 10
  | _, _ => 50

/-- Embedding of `calculateMatchScore` from the source.  `now` is the
current instant (`Date.now()` / `new Date()`), used both for the age
computation and as the host preferred start for availability. -/
def calculateMatchScore (auPairProfile : AuPairProfile)
    (hostProfile : HostFamilyProfile) (now : Int) : ℤ :=
  let languageScore := calculateLanguageMatch auPairProfile.languages hostProfile.preferredLanguages
  let countryScore : ℚ :=
    if hostProfile.country ∈ auPairProfile.preferredCountries then 25 else 0
  let ageScore := calculateAgeMatch auPairProfile.dateOfBirth hostProfile.childrenAges now
  let availabilityScore := calculateAvailabilityMatch auPairProfile.availableFrom
    auPairProfile.availableTo (some now)
  let budgetScore := calculateBudgetMatch auPairProfile.hourlyRate hostProfile.maxBudget
  jsRound (languageScore * (3/10) + countryScore + ageScore * (2/10)
    + availabilityScore * (15/100) + budgetScore * (1/10))

/-- Raw points the country factor adds inside `calculateMatchScore`. -/
def countryPoints (c : AuPairProfile) (h : HostFamilyProfile) : ℚ :=
  if h.country ∈ c.preferredCountries then 25 else 0

/-- Weighted sum of all factors except the country factor. -/
def weightedNonCountrySum (c : AuPairProfile) (h : HostFamilyProfile) (now : Int) : ℚ :=
  calculateLanguageMatch c.languages h.preferredLanguages * (3/10)
    + calculateAgeMatch c.dateOfBirth h.childrenAges now * (2/10)
    + calculateAvailabilityMatch c.availableFrom c.availableTo (some now) * (15/100)
    + calculateBudgetMatch c.hourlyRate h.maxBudget * (1/10)

/-- Weighted sum of all factors except the language factor. -/
def weightedNonLanguageSum (c : AuPairProfile) (h : HostFamilyProfile) (now : Int) : ℚ :=
  countryPoints c h
    + calculateAgeMatch c.dateOfBirth h.childrenAges now * (2/10)
    + calculateAvailabilityMatch c.availableFrom c.availableTo (some now) * (15/100)
    + calculateBudgetMatch c.hourlyRate h.maxBudget * (1/10)

/-!
Spec-side definitions, written from the specification's weight table
(§4.1) rather than from the source, for the refinement claim comparing
the source scorer with the spec's factor rules.
-/

/-- Language overlap rule as the spec states it: sub-score 100 when the
counterparty has no preferred languages, else the count of candidate
languages case-insensitively matching a preferred language over the
count of preferred languages, times 100. -/
def specLanguageSubScore (candLangs prefLangs : List String) : ℚ :=
  if prefLangs = [] then 100
  else
    ((candLangs.countP fun l => prefLangs.any fun p => jsToLower p == jsToLower l : ℕ) : ℚ)
      / (prefLangs.length : ℚ) * 100

/-- Country rule as the spec states it: 25 raw points when the
counterparty country is in the candidate preferred-countries set. -/
def specCountrySubPoints (c : AuPairProfile) (h : HostFamilyProfile) : ℚ :=
  if h.country ∈ c.preferredCountries then 25 else 0

/-- Age rule as the spec states it, with age = floor(days elapsed /
365.25), days elapsed measured in milliseconds over one day. -/
def specAgeSubScore (birth : Option Int) (ages : List Int) (now : Int) : ℚ :=
  match birth with
  | none => 50
  | some b =>
    if ages = [] then 50
    else
      let daysElapsed : ℚ := ((now - b : ℤ) : ℚ) / msPerDay
      let age : ℤ := ⌊daysElapsed / (36525/100)⌋
      if (ages.any fun a => a ≤ 10) = true ∧ 18 ≤ age ∧ age ≤ 30 then 100
      else if (ages.any fun a => 11 ≤ a) = true ∧ 20 ≤ age ∧ age ≤ 35 then 100
      else if 18 ≤ age ∧ age ≤ 35 then 70
      else 30

/-- Availability rule as the spec states it. -/
def specAvailabilitySubScore (fromD toD refStart : Option Int) : ℚ :=
  match fromD, toD, refStart with
  | some f, some t, some r =>
    if f ≤ r ∧ r ≤ t then 100
    else
      let dayDistance : ℚ := |((r - f : ℤ) : ℚ)| / msPerDay
      if dayDistance ≤ 30 then 80
      else if dayDistance ≤ 90 then 60
      else if dayDistance ≤ 180 then 30
      else 10
  | _, _, _ => 50

/-- Budget rule as the spec states it: 50 only when a field is ABSENT
(the spec does not special-case a present value of 0). -/
def specBudgetSubScore (rate budget : Option ℚ) : ℚ :=
  match rate, budget with
  | some r, some b =>
    if r ≤ b then 100
    else if r / b ≤ 12/10 then 70
    else if r / b ≤ 15/10 then 40
    else 10
  | _, _ => 50

/-- Final score formula as the spec states it:
round(0.3·language + country + 0.2·age + 0.15·availability + 0.1·budget). -/
def specScore (c : AuPairProfile) (h : HostFamilyProfile) (now : Int) : ℤ :=
  jsRound ((3/10) * specLanguageSubScore c.languages h.preferredLanguages
    + specCountrySubPoints c h
    + (2/10) * specAgeSubScore c.dateOfBirth h.childrenAges now
    + (15/100) * specAvailabilitySubScore c.availableFrom c.availableTo (some now)
    + (1/10) * specBudgetSubScore c.hourlyRate h.maxBudget)

/-!
Booking model, from `backend/src/routes/bookings.ts`.
-/

/-- Booking lifecycle states used by the routes. -/
inductive BookingStatus
  | PENDING
  | APPROVED
  | REJECTED
  | CANCELLED
  | COMPLETED
deriving DecidableEq

/-- The fields of a stored booking that the conflict query reads. -/
structure Booking where
  startDate : Int
  endDate : Int
  status : BookingStatus
deriving DecidableEq

/-- Statuses in the `status: { in: ['PENDING', 'APPROVED'] }` filter of
the conflict query. -/
def isActiveStatus : BookingStatus → Bool
  | .PENDING => true
  | .APPROVED => true
  | _ => false

/-- The three inclusive-bound overlap conditions of the conflict query
(`OR` of three `AND` pairs on `startDate`/`endDate`). -/
def overlapsProposed (startDate endDate : Int) (b : Booking) : Bool :=
  (decide (b.startDate ≤ startDate) && decide (startDate ≤ b.endDate))
    || (decide (b.startDate ≤ endDate) && decide (endDate ≤ b.endDate))
    || (decide (startDate ≤ b.startDate) && decide (b.endDate ≤ endDate))

/-- Embedding of the conflict check: some existing booking with status
PENDING or APPROVED satisfies one of the three overlap conditions. -/
def hasConflict (startDate endDate : Int) (existingBookings : List Booking) : Bool :=
  existingBookings.any fun b =>
    isActiveStatus b.status && overlapsProposed startDate endDate b

/-- Rejection reasons of the booking-creation route, in check order. -/
inductive BookingError
  | endNotAfterStart
  | startInPast
  | conflictingBooking
deriving DecidableEq

/-- Embedding of the validation and creation path of `POST /bookings`:
reject when the end is not strictly after the start, then when the
start is strictly before the current instant, then when the conflict
check fires; otherwise create a PENDING booking for the interval. -/
def createBookingRequest (startDate endDate now : Int)
    (existingBookings : List Booking) : Except BookingError Booking :=
  if endDate ≤ startDate then .error .endNotAfterStart
  else if startDate < now then .error .startInPast
  else if hasConflict startDate endDate existingBookings then .error .conflictingBooking
  else .ok { startDate := startDate, endDate := endDate, status := .PENDING }

/-!
Ranking, from `findMatches` in the source: decorate each counterparty
with its score, sort by the comparator `(a, b) => b.matchScore -
a.matchScore` (a stable sort, descending by score), then take the
first `limit` elements (default 20).
-/

/-- Stable sort of scored counterparties by descending score,
modelling `.sort((a, b) => b.matchScore - a.matchScore)`. -/
def rankByScore {α : Type} (scored : List (α × ℤ)) : List (α × ℤ) :=
  scored.mergeSort fun a b => decide (b.2 ≤ a.2)

/-- Embedding of the sort-and-truncate tail of `findMatches`:
`.sort(...).slice(0, limit)`. -/
def findMatchesTop {α : Type} (scored : List (α × ℤ)) (limit : Nat) : List (α × ℤ) :=
  (rankByScore scored).take limit

/-- Limit resolution of the `GET /matches/potential` route:
`parseInt(req.query.limit) || 20` — an absent/unparsable limit (and a
limit of 0, by JS falsiness) falls back to the default 20. -/
def effectiveLimit : Option Int → Int
  | none => 20
  | some n => if n = 0 then 20 else n

/-!
Concrete profiles used by scenario conjuncts, counterexamples and
witnesses.
-/

/-- Candidate with every optional field absent and every list empty. -/
def cBase : AuPairProfile :=
  { languages := [], preferredCountries := [], dateOfBirth := none,
    availableFrom := none, availableTo := none, hourlyRate := none }

/-- Counterparty with no preferences beyond a country string. -/
def hBase : HostFamilyProfile :=
  { preferredLanguages := [], country := "X", childrenAges := [], maxBudget := none }

/-- Scenario C candidate: hourly rate 15. -/
def cScenC : AuPairProfile := { cBase with hourlyRate := some 15 }

/-- Scenario C counterparty: maximum budget 20. -/
def hScenC : HostFamilyProfile := { hBase with maxBudget := some 20 }

/-- Scenario A candidate: languages French and English. -/
def cScenA : AuPairProfile := { cBase with languages := ["French", "English"] }

/-- Scenario A counterparty: preferred language "french". -/
def hScenA : HostFamilyProfile := { hBase with preferredLanguages := ["french"] }

/-- Scenario B candidate: preferred countries ["USA"]. -/
def cUSA : AuPairProfile := { cBase with preferredCountries := ["USA"] }

/-- Scenario B counterparty: country "usa" (case variant). -/
def hUsaLower : HostFamilyProfile := { hBase with country := "usa" }

/-- Counterparty with country "USA" (exact match for `cUSA`). -/
def hUsaUpper : HostFamilyProfile := { hBase with country := "USA" }

/-- Candidate whose language list repeats one language in two cases and
whose other factors all score fully. -/
def cDup : AuPairProfile :=
  { languages := ["a", "A"], preferredCountries := ["X"], dateOfBirth := some 0,
    availableFrom := some 0, availableTo := some 1000000000000, hourlyRate := some 5 }

/-- Counterparty matching `cDup` on every factor. -/
def hDup : HostFamilyProfile :=
  { preferredLanguages := ["a"], country := "X", childrenAges := [5], maxBudget := some 10 }

/-- Candidate with a present hourly rate of exactly 0. -/
def cZeroRate : AuPairProfile := { cBase with hourlyRate := some 0 }

/-- Counterparty with a positive maximum budget of 10. -/
def hTenBudget : HostFamilyProfile := { hBase with maxBudget := some 10 }

/-!
Claim C10: a present value of 0 for the rate or the budget is treated
like an absent field by the JS falsiness guard.
-/

/-- C10: if the candidate hourly rate is present but 0, or the
counterparty maximum budget is present but 0, the budget sub-score is
the neutral 50 (not 100), exactly as for an absent field. -/
theorem budgetMatch_zero_is_neutral :
    (∀ b : Option ℚ, calculateBudgetMatch (some 0) b = 50)
      ∧ (∀ r : Option ℚ, calculateBudgetMatch r (some 0) = 50)
      ∧ calculateBudgetMatch (some 0) (some 10) ≠ 100 := by
  refine ⟨fun b => ?_, fun r => ?_, ?_⟩
  · rcases b with _ | bv <;> simp [calculateBudgetMatch]
  · rcases r with _ | rv <;> simp [calculateBudgetMatch]
  · norm_num [calculateBudgetMatch]

/-!
Claim C4: the budget factor rules.  The claim as stated says a present
rate that is at most the budget yields sub-score 100; the code instead
returns the neutral 50 whenever rate or budget is the number 0, so the
claim fails at rate 0 against budget 20.
-/

/-- C4 counterexample: rate 0 is at most budget 20, yet the sub-score
is 50 rather than the claimed 100. -/
theorem budgetMatch_zero_rate_counterexample :
    (0 : ℚ) ≤ 20 ∧ calculateBudgetMatch (some 0) (some 20) ≠ 100 := by
  constructor
  · norm_num
  · norm_num [calculateBudgetMatch]

/-- C4 (amended): absent-or-zero rate or budget gives 50; for present
nonzero values, rate at most budget gives 100 (rate 15 against budget
20 gives 100 and a final score contribution of 10 points), ratio at
most 1.2 gives 70, at most 1.5 gives 40, anything larger gives 10. -/
theorem budgetMatch_rules :
    (∀ b : Option ℚ, calculateBudgetMatch none b = 50)
      ∧ (∀ r : Option ℚ, calculateBudgetMatch r none = 50)
      ∧ (∀ r b : ℚ, r = 0 ∨ b = 0 → calculateBudgetMatch (some r) (some b) = 50)
      ∧ (∀ r b : ℚ, r ≠ 0 → b ≠ 0 →
          (r ≤ b → calculateBudgetMatch (some r) (some b) = 100)
          ∧ (¬ r ≤ b → r / b ≤ 12/10 → calculateBudgetMatch (some r) (some b) = 70)
          ∧ (¬ r ≤ b → ¬ r / b ≤ 12/10 → r / b ≤ 15/10 →
              calculateBudgetMatch (some r) (some b) = 40)
          ∧ (¬ r ≤ b → ¬ r / b ≤ 15/10 → calculateBudgetMatch (some r) (some b) = 10))
      ∧ calculateBudgetMatch (some 15) (some 20) = 100
      ∧ calculateMatchScore cScenC hScenC 0 = 58 := by
  refine ⟨fun b => ?_, fun r => ?_, fun r b hrb => ?_, fun r b hr hb => ?_, ?_, ?_⟩
  · rcases b with _ | bv <;> simp [calculateBudgetMatch]
  · rcases r with _ | rv <;> simp [calculateBudgetMatch]
  · simp [calculateBudgetMatch, hrb]
  · refine ⟨fun hle => ?_, fun hgt h12 => ?_, fun hgt h12 h15 => ?_, fun hgt h15 => ?_⟩
    · simp [calculateBudgetMatch, hr, hb, hle]
    · simp [calculateBudgetMatch, hr, hb, hgt, h12]
    · simp [calculateBudgetMatch, hr, hb, hgt, h12, h15]
    · have h12 : ¬ r / b ≤ 12/10 := fun h => h15 (le_trans h (by norm_num))
      simp [calculateBudgetMatch, hr, hb, hgt, h12, h15]
  · norm_num [calculateBudgetMatch]
  · norm_num [calculateMatchScore, calculateLanguageMatch, calculateAgeMatch,
      calculateAvailabilityMatch, calculateBudgetMatch, cScenC, hScenC, cBase, hBase, jsRound]

/-- C4 witness: the amended rules applied at rate 30 over budget 20
(ratio 1.5) produce the 40 band. -/
theorem budgetMatch_rules_witness : calculateBudgetMatch (some 30) (some 20) = 40 :=
  (budgetMatch_rules.2.2.2.1 30 20 (by norm_num) (by norm_num)).2.2.1
    (by norm_num) (by norm_num) (by norm_num)

/-!
Claim C9: booking-creation validations.
-/

/-- C9: booking creation rejects any request whose end is not strictly
after its start, then any request whose start is strictly before the
current instant; only requests passing both reach the conflict check,
and a created booking always satisfies both checks. -/
theorem createBooking_validation :
    ∀ (startDate endDate now : Int) (existing : List Booking),
      (endDate ≤ startDate →
        createBookingRequest startDate endDate now existing = .error .endNotAfterStart)
      ∧ (startDate < endDate → startDate < now →
        createBookingRequest startDate endDate now existing = .error .startInPast)
      ∧ (startDate < endDate → now ≤ startDate →
        createBookingRequest startDate endDate now existing =
          if hasConflict startDate endDate existing then .error .conflictingBooking
          else .ok { startDate := startDate, endDate := endDate, status := .PENDING })
      ∧ (∀ b, createBookingRequest startDate endDate now existing = .ok b →
          startDate < endDate ∧ now ≤ startDate) := by
  intro startDate endDate now existing
  refine ⟨fun hend => ?_, fun hlt hpast => ?_, fun hlt hfut => ?_, fun b hok => ?_⟩
  · simp [createBookingRequest, hend]
  · simp [createBookingRequest, not_le.mpr hlt, hpast]
  · simp [createBookingRequest, not_le.mpr hlt, not_lt.mpr hfut]
  · by_contra hcon
    rcases not_and_or.mp hcon with h | h
    · rw [createBookingRequest, if_pos (not_lt.mp h)] at hok
      exact Except.noConfusion hok
    · rw [createBookingRequest] at hok
      split at hok
      · exact Except.noConfusion hok
      · rw [if_pos (not_le.mp h)] at hok
        exact Except.noConfusion hok

/-!
Decomposition lemmas for the scorer.
-/

/-- The final score is the rounded sum of the country points and the
weighted non-country factors. -/
lemma matchScore_decompose (c : AuPairProfile) (h : HostFamilyProfile) (now : Int) :
    calculateMatchScore c h now =
      jsRound (weightedNonCountrySum c h now
        + (if h.country ∈ c.preferredCountries then 25 else 0)) := by
  simp only [calculateMatchScore, weightedNonCountrySum, jsRound]
  congr 1
  ring

/-!
Claim C5: the country factor contributes exactly 25 on an exact,
case-sensitive match and exactly 0 otherwise.
-/

/-- C5: the score decomposes as the rounded sum of the non-country
factors plus exactly 25 or exactly 0 according to exact string
membership of the counterparty country in the candidate preferred
countries; concretely, preferred ["USA"] against country "usa" gets 0
(score 53) while against "USA" it gets the full 25 (score 78). -/
theorem countryFactor_exact_and_case_sensitive :
    (∀ (c : AuPairProfile) (h : HostFamilyProfile) (now : Int),
      calculateMatchScore c h now =
        jsRound (weightedNonCountrySum c h now
          + (if h.country ∈ c.preferredCountries then 25 else 0)))
      ∧ calculateMatchScore cUSA hUsaLower 0 = 53
      ∧ calculateMatchScore cUSA hUsaUpper 0 = 78 := by
  refine ⟨matchScore_decompose, ?_, ?_⟩
  · have hne : ¬ ("usa" = "USA") := by decide
    norm_num [calculateMatchScore, calculateLanguageMatch, calculateAgeMatch,
      calculateAvailabilityMatch, calculateBudgetMatch, cUSA, hUsaLower, cBase, hBase,
      jsRound, hne]
  · norm_num [calculateMatchScore, calculateLanguageMatch, calculateAgeMatch,
      calculateAvailabilityMatch, calculateBudgetMatch, cUSA, hUsaUpper, cBase, hBase, jsRound]

/-!
Claim C7: an empty preferred-languages set makes the language factor
contribute exactly 30 points whatever the candidate languages are.
-/

/-- C7: when the counterparty has no preferred languages the language
sub-score is 100 and the final score is the rounded sum of 30 plus the
weighted non-language factors, for every candidate. -/
theorem emptyPreferredLanguages_contributes_30 :
    ∀ (c : AuPairProfile) (h : HostFamilyProfile) (now : Int),
      h.preferredLanguages = [] →
        calculateLanguageMatch c.languages h.preferredLanguages = 100
        ∧ calculateMatchScore c h now = jsRound (30 + weightedNonLanguageSum c h now) := by
  intro c h now hp
  have hl : calculateLanguageMatch c.languages h.preferredLanguages = 100 := by
    simp [calculateLanguageMatch, hp]
  refine ⟨hl, ?_⟩
  simp only [calculateMatchScore, weightedNonLanguageSum, countryPoints, hl, jsRound]
  congr 1
  ring

/-- C7 witness: the empty-preference rule applied at the base
profiles. -/
theorem emptyPreferredLanguages_contributes_30_witness :
    calculateLanguageMatch cBase.languages hBase.preferredLanguages = 100
      ∧ calculateMatchScore cBase hBase 0 =
          jsRound (30 + weightedNonLanguageSum cBase hBase 0) :=
  emptyPreferredLanguages_contributes_30 cBase hBase 0 rfl

/-!
Equivalence of the source sub-scores with the spec-side rules.
-/

/-- The source language sub-score equals the spec language rule. -/
lemma languageMatch_eq_spec (a p : List String) :
    calculateLanguageMatch a p = specLanguageSubScore a p := by
  simp [calculateLanguageMatch, specLanguageSubScore, List.countP_eq_length_filter,
    List.length_eq_zero]

/-- The source age sub-score equals the spec age rule: dividing the
elapsed milliseconds by one year is dividing the elapsed days by
365.25. -/
lemma ageMatch_eq_spec (d : Option Int) (ages : List Int) (now : Int) :
    calculateAgeMatch d ages now = specAgeSubScore d ages now := by
  rcases d with _ | b
  · rfl
  · have harith : ∀ x : ℚ, x / msPerDay / (36525/100) = x / msPerYear := by
      intro x
      rw [div_div]
      norm_num [msPerDay, msPerYear]
    simp only [calculateAgeMatch, specAgeSubScore, harith, List.length_eq_zero]

/-- The source availability sub-score is the spec availability rule. -/
lemma availabilityMatch_eq_spec :
    calculateAvailabilityMatch = specAvailabilitySubScore := rfl

/-- Away from a present 0, the source budget sub-score equals the spec
budget rule. -/
lemma budgetMatch_eq_spec (r b : Option ℚ) (hr : r ≠ some 0) (hb : b ≠ some 0) :
    calculateBudgetMatch r b = specBudgetSubScore r b := by
  rcases r with _ | rv
  · rfl
  rcases b with _ | bv
  · rfl
  have hrv : rv ≠ 0 := fun hh => hr (by rw [hh])
  have hbv : bv ≠ 0 := fun hh => hb (by rw [hh])
  simp [calculateBudgetMatch, specBudgetSubScore, hrv, hbv]

/-!
Claim C1: the score is the rounded weighted sum of the spec's factor
rules.  The claim fails as stated: the spec budget rule returns 100
for a present rate of 0 under a positive budget, while the source
returns the neutral 50, and the difference survives rounding.
-/

/-- C1 counterexample: at a present hourly rate of 0 against budget
10, the source score is 53 but the spec formula gives 58. -/
theorem matchScore_ne_specScore_at_zero_rate :
    calculateMatchScore cZeroRate hTenBudget 0 ≠ specScore cZeroRate hTenBudget 0 := by
  have h1 : calculateMatchScore cZeroRate hTenBudget 0 = 53 := by
    norm_num [calculateMatchScore, calculateLanguageMatch, calculateAgeMatch,
      calculateAvailabilityMatch, calculateBudgetMatch, cZeroRate, hTenBudget,
      cBase, hBase, jsRound]
  have h2 : specScore cZeroRate hTenBudget 0 = 58 := by
    norm_num [specScore, specLanguageSubScore, specCountrySubPoints, specAgeSubScore,
      specAvailabilitySubScore, specBudgetSubScore, cZeroRate, hTenBudget,
      cBase, hBase, jsRound]
  rw [h1, h2]
  norm_num

/-- C1 (amended): whenever neither the hourly rate nor the maximum
budget is a present 0, the source score equals
round(0.3·language + country + 0.2·age + 0.15·availability +
0.1·budget) computed with the spec's factor rules. -/
theorem matchScore_eq_specScore :
    ∀ (c : AuPairProfile) (h : HostFamilyProfile) (now : Int),
      c.hourlyRate ≠ some 0 → h.maxBudget ≠ some 0 →
        calculateMatchScore c h now = specScore c h now := by
  intro c h now hr hb
  simp only [calculateMatchScore, specScore, languageMatch_eq_spec, ageMatch_eq_spec,
    availabilityMatch_eq_spec, budgetMatch_eq_spec _ _ hr hb, specCountrySubPoints, jsRound]
  congr 1
  ring

/-- C1 witness: the amended equality at the base profiles. -/
theorem matchScore_eq_specScore_witness :
    calculateMatchScore cBase hBase 0 = specScore cBase hBase 0 :=
  matchScore_eq_specScore cBase hBase 0 (by decide) (by decide)

/-!
Range lemmas for the individual factors.
-/

/-- The language sub-score is never negative. -/
lemma languageMatch_nonneg (a p : List String) : 0 ≤ calculateLanguageMatch a p := by
  unfold calculateLanguageMatch
  split
  · norm_num
  · positivity

/-- The age sub-score always lies in [0, 100]. -/
lemma ageMatch_bounds (d : Option Int) (ages : List Int) (now : Int) :
    0 ≤ calculateAgeMatch d ages now ∧ calculateAgeMatch d ages now ≤ 100 := by
  unfold calculateAgeMatch
  rcases d with _ | b
  · norm_num
  · dsimp only
    split_ifs <;> norm_num

/-- The availability sub-score always lies in [0, 100]. -/
lemma availabilityMatch_bounds (f t s : Option Int) :
    0 ≤ calculateAvailabilityMatch f t s ∧ calculateAvailabilityMatch f t s ≤ 100 := by
  unfold calculateAvailabilityMatch
  rcases f with _ | fv <;> rcases t with _ | tv <;> rcases s with _ | sv <;>
    dsimp only <;> try norm_num
  split_ifs <;> norm_num

/-- The budget sub-score always lies in [0, 100]. -/
lemma budgetMatch_bounds (r b : Option ℚ) :
    0 ≤ calculateBudgetMatch r b ∧ calculateBudgetMatch r b ≤ 100 := by
  unfold calculateBudgetMatch
  rcases r with _ | rv <;> rcases b with _ | bv <;> dsimp only <;> try norm_num
  split_ifs <;> norm_num

/-!
Claim C3: the score is claimed to be an integer in [0, 100] for every
input.  The integrality and the lower bound hold, but the upper bound
fails: a candidate language list repeating one preferred language in
two spellings makes the language sub-score exceed 100.
-/

/-- C3 counterexample: candidate languages ["a", "A"] against
preferred ["a"] give language sub-score 200, and with every other
factor at its maximum the final score is 130. -/
theorem matchScore_exceeds_100 : 100 < calculateMatchScore cDup hDup 788940000000 := by
  have h130 : calculateMatchScore cDup hDup 788940000000 = 130 := by
    have h1 : (jsToLower "a" == jsToLower "a") = true := by decide
    have h2 : (jsToLower "a" == jsToLower "A") = true := by decide
    norm_num [calculateMatchScore, calculateLanguageMatch, calculateAgeMatch,
      calculateAvailabilityMatch, calculateBudgetMatch, cDup, hDup, jsRound,
      msPerYear, h1, h2, List.filter, List.any]
  rw [h130]
  norm_num

/-- C3 (amended): the score is an integer, never negative, and at most
100 whenever the language sub-score is at most 100 (in particular
whenever no preferred language is matched by several candidate
entries). -/
theorem matchScore_bounds :
    ∀ (c : AuPairProfile) (h : HostFamilyProfile) (now : Int),
      0 ≤ calculateMatchScore c h now
      ∧ (calculateLanguageMatch c.languages h.preferredLanguages ≤ 100 →
          calculateMatchScore c h now ≤ 100) := by
  intro c h now
  obtain ⟨ha0, ha1⟩ := ageMatch_bounds c.dateOfBirth h.childrenAges now
  obtain ⟨hv0, hv1⟩ := availabilityMatch_bounds c.availableFrom c.availableTo (some now)
  obtain ⟨hb0, hb1⟩ := budgetMatch_bounds c.hourlyRate h.maxBudget
  have hl0 := languageMatch_nonneg c.languages h.preferredLanguages
  have hc0 : (0 : ℚ) ≤ if h.country ∈ c.preferredCountries then 25 else 0 := by
    split <;> norm_num
  have hc1 : (if h.country ∈ c.preferredCountries then (25 : ℚ) else 0) ≤ 25 := by
    split <;> norm_num
  constructor
  · simp only [calculateMatchScore, jsRound]
    apply Int.le_floor.mpr
    push_cast
    nlinarith [hl0, ha0, hv0, hb0, hc0]
  · intro hl1
    simp only [calculateMatchScore, jsRound]
    have hfl : ⌊(100 : ℚ) + 1/2⌋ = 100 := by norm_num
    calc ⌊calculateLanguageMatch c.languages h.preferredLanguages * (3/10)
          + (if h.country ∈ c.preferredCountries then (25:ℚ) else 0)
          + calculateAgeMatch c.dateOfBirth h.childrenAges now * (2/10)
          + calculateAvailabilityMatch c.availableFrom c.availableTo (some now) * (15/100)
          + calculateBudgetMatch c.hourlyRate h.maxBudget * (1/10) + 1/2⌋
        ≤ ⌊(100 : ℚ) + 1/2⌋ := by
          apply Int.floor_le_floor
          nlinarith [hl1, ha1, hv1, hb1, hc1]
      _ = 100 := hfl

/-- C3 witness: the amended bounds at the base profiles, whose
language sub-score is 100. -/
theorem matchScore_bounds_witness :
    0 ≤ calculateMatchScore cBase hBase 0 ∧ calculateMatchScore cBase hBase 0 ≤ 100 :=
  ⟨(matchScore_bounds cBase hBase 0).1,
   (matchScore_bounds cBase hBase 0).2 (by norm_num [calculateLanguageMatch, cBase, hBase])⟩

/-!
Claim C6: language matching is case-insensitive, so the score is
invariant under re-casing language strings on either side.
-/

/-- The language sub-score factors through the lowercased lists. -/
lemma languageMatch_via_toLower (a p : List String) :
    calculateLanguageMatch a p =
      if (p.map jsToLower).length = 0 then 100
      else (((a.map jsToLower).countP fun s =>
          (p.map jsToLower).any fun q => q == s : ℕ) : ℚ)
        / ((p.map jsToLower).length : ℚ) * 100 := by
  simp only [calculateLanguageMatch, List.length_map, ← List.countP_eq_length_filter,
    List.countP_map, List.any_map, Function.comp_def]

/-- Lists equal after lowercasing produce equal language sub-scores. -/
lemma languageMatch_case_invariant (a a2 p p2 : List String)
    (ha : a.map jsToLower = a2.map jsToLower)
    (hp : p.map jsToLower = p2.map jsToLower) :
    calculateLanguageMatch a p = calculateLanguageMatch a2 p2 := by
  rw [languageMatch_via_toLower, languageMatch_via_toLower, ha, hp]

/-- C6: the score is unchanged when any language string on either side
is re-cased; concretely, candidate ["French", "English"] against
preferred ["french"] has language sub-score 100 and score 53, which is
30 points above the same profiles with no candidate languages. -/
theorem matchScore_language_case_invariant :
    (∀ (c : AuPairProfile) (h : HostFamilyProfile) (now : Int)
        (langs prefs : List String),
      langs.map jsToLower = c.languages.map jsToLower →
      prefs.map jsToLower = h.preferredLanguages.map jsToLower →
      calculateMatchScore { c with languages := langs }
          { h with preferredLanguages := prefs } now = calculateMatchScore c h now)
    ∧ calculateLanguageMatch ["French", "English"] ["french"] = 100
    ∧ calculateMatchScore cScenA hScenA 0 = 53
    ∧ calculateMatchScore { cScenA with languages := [] } hScenA 0 = 23 := by
  have h1 : (jsToLower "french" == jsToLower "French") = true := by decide
  have h2 : (jsToLower "french" == jsToLower "English") = false := by decide
  refine ⟨?_, ?_, ?_, ?_⟩
  · intro c h now langs prefs ha hp
    dsimp only [calculateMatchScore]
    rw [languageMatch_case_invariant langs c.languages prefs h.preferredLanguages ha hp]
  · norm_num [calculateLanguageMatch, h1, h2, List.filter]
  · norm_num [calculateMatchScore, calculateLanguageMatch, calculateAgeMatch,
      calculateAvailabilityMatch, calculateBudgetMatch, cScenA, hScenA, cBase, hBase,
      jsRound, h1, h2, List.filter]
  · norm_num [calculateMatchScore, calculateLanguageMatch, calculateAgeMatch,
      calculateAvailabilityMatch, calculateBudgetMatch, cScenA, hScenA, cBase, hBase,
      jsRound, List.filter]

/-- C6 witness: re-casing both sides at the scenario profiles leaves
the score unchanged. -/
theorem matchScore_language_case_invariant_witness :
    calculateMatchScore { cScenA with languages := ["FRENCH", "ENGLISH"] }
        { hScenA with preferredLanguages := ["French"] } 0
      = calculateMatchScore cScenA hScenA 0 :=
  matchScore_language_case_invariant.1 cScenA hScenA 0 ["FRENCH", "ENGLISH"] ["French"]
    (by decide) (by decide)

/-!
Claim C2: the conflict check is inclusive-interval overlap restricted
to PENDING/APPROVED bookings.
-/

/-- The PENDING/APPROVED filter as a proposition. -/
lemma isActiveStatus_iff (s : BookingStatus) :
    isActiveStatus s = true ↔ s = .PENDING ∨ s = .APPROVED := by
  cases s <;> simp [isActiveStatus]

/-- For well-formed intervals the three query conditions hold exactly
when the two closed intervals share an instant. -/
lemma overlapsProposed_iff (ps pe : Int) (b : Booking)
    (hp : ps ≤ pe) (hb : b.startDate ≤ b.endDate) :
    overlapsProposed ps pe b = true ↔
      ∃ t : Int, b.startDate ≤ t ∧ t ≤ b.endDate ∧ ps ≤ t ∧ t ≤ pe := by
  simp only [overlapsProposed, Bool.or_eq_true, Bool.and_eq_true, decide_eq_true_eq]
  constructor
  · intro hov
    exact ⟨max ps b.startDate, by omega, by omega, by omega, by omega⟩
  · rintro ⟨t, h1, h2, h3, h4⟩
    omega

/-- C2: the conflict check returns true exactly when some existing
booking with status PENDING or APPROVED shares at least one instant
with the proposed interval (inclusive bounds); concretely, a touching
boundary instant conflicts, a strict gap does not, and an overlapping
REJECTED booking does not. -/
theorem hasConflict_iff_shared_instant :
    (∀ (startDate endDate : Int) (existing : List Booking),
      startDate ≤ endDate →
      (∀ b ∈ existing, b.startDate ≤ b.endDate) →
      (hasConflict startDate endDate existing = true ↔
        ∃ b ∈ existing, (b.status = .PENDING ∨ b.status = .APPROVED)
          ∧ ∃ t : Int, b.startDate ≤ t ∧ t ≤ b.endDate
              ∧ startDate ≤ t ∧ t ≤ endDate))
    ∧ hasConflict 100 200 [{ startDate := 200, endDate := 300, status := .APPROVED }] = true
    ∧ hasConflict 100 200 [{ startDate := 201, endDate := 300, status := .APPROVED }] = false
    ∧ hasConflict 110 190 [{ startDate := 120, endDate := 180, status := .REJECTED }] = false := by
  refine ⟨?_, by decide, by decide, by decide⟩
  intro ps pe existing hp hvalid
  rw [hasConflict, List.any_eq_true]
  constructor
  · rintro ⟨b, hmem, hb⟩
    rw [Bool.and_eq_true] at hb
    exact ⟨b, hmem, (isActiveStatus_iff b.status).mp hb.1,
      (overlapsProposed_iff ps pe b hp (hvalid b hmem)).mp hb.2⟩
  · rintro ⟨b, hmem, hst, hov⟩
    refine ⟨b, hmem, ?_⟩
    rw [Bool.and_eq_true]
    exact ⟨(isActiveStatus_iff b.status).mpr hst,
      (overlapsProposed_iff ps pe b hp (hvalid b hmem)).mpr hov⟩

/-- C2 witness: the overlap characterization at a proposed interval
touching an approved booking exactly at its boundary. -/
theorem hasConflict_iff_shared_instant_witness :
    hasConflict 100 200 [{ startDate := 200, endDate := 300, status := .APPROVED }] = true ↔
      ∃ b ∈ [({ startDate := 200, endDate := 300, status := .APPROVED } : Booking)],
        (b.status = .PENDING ∨ b.status = .APPROVED)
        ∧ ∃ t : Int, b.startDate ≤ t ∧ t ≤ b.endDate ∧ 100 ≤ t ∧ t ≤ 200 :=
  hasConflict_iff_shared_instant.1 100 200 _ (by norm_num) (by decide)

/-!
Claim C8: ranking sorts by non-increasing score, stably, and takes the
caller-supplied top-N (default 20).
-/

/-- Transitivity of the descending-score comparator. -/
lemma scoreLe_trans {α : Type} (a b c : α × ℤ)
    (h1 : decide (b.2 ≤ a.2) = true) (h2 : decide (c.2 ≤ b.2) = true) :
    decide (c.2 ≤ a.2) = true := by
  simp only [decide_eq_true_eq] at h1 h2 ⊢
  omega

/-- Totality of the descending-score comparator. -/
lemma scoreLe_total {α : Type} (a b : α × ℤ) :
    (decide (b.2 ≤ a.2) || decide (a.2 ≤ b.2)) = true := by
  simp only [Bool.or_eq_true, decide_eq_true_eq]
  omega

/-- Stability: the ranked list restricted to any fixed score is the
input restricted to that score, in input order. -/
lemma rankByScore_filter_eq {α : Type} (scored : List (α × ℤ)) (s : ℤ) :
    (rankByScore scored).filter (fun x => x.2 == s)
      = scored.filter (fun x => x.2 == s) := by
  have hpair : (scored.filter fun x => x.2 == s).Pairwise
      (fun a b : α × ℤ => decide (b.2 ≤ a.2) = true) := by
    apply List.pairwise_of_forall_mem_list
    intro a hha b hhb
    have ha2 : a.2 = s := by simpa using (List.mem_filter.mp hha).2
    have hb2 : b.2 = s := by simpa using (List.mem_filter.mp hhb).2
    simp [ha2, hb2]
  have hsub : (scored.filter fun x => x.2 == s).Sublist
      (scored.mergeSort fun a b => decide (b.2 ≤ a.2)) :=
    List.sublist_mergeSort scoreLe_trans scoreLe_total hpair (List.filter_sublist scored)
  have h1 := hsub.filter (fun x => x.2 == s)
  rw [List.filter_filter] at h1
  simp only [Bool.and_self] at h1
  have hperm : ((scored.mergeSort fun a b => decide (b.2 ≤ a.2)).filter
      fun x => x.2 == s).Perm (scored.filter fun x => x.2 == s) :=
    (List.mergeSort_perm scored _).filter _
  exact (h1.eq_of_length hperm.length_eq.symm).symm

/-- C8: the ranking operation is the stable descending-by-score sort
of the scored counterparties truncated to the first `limit` entries:
the result is pairwise non-increasing in score, the sorted list is a
permutation of the input that preserves input order within each score,
the truncation keeps min(limit, n) entries, and an absent
caller-supplied limit resolves to the default 20. -/
theorem findMatches_ranking :
    ∀ {α : Type} (scored : List (α × ℤ)) (limit : Nat),
      (findMatchesTop scored limit).Pairwise (fun a b : α × ℤ => b.2 ≤ a.2)
      ∧ findMatchesTop scored limit = (rankByScore scored).take limit
      ∧ (rankByScore scored).Perm scored
      ∧ (∀ s : ℤ, (rankByScore scored).filter (fun x => x.2 == s)
          = scored.filter (fun x => x.2 == s))
      ∧ (findMatchesTop scored limit).length = min limit scored.length
      ∧ effectiveLimit none = 20 := by
  intro α scored limit
  have hsorted : (rankByScore scored).Pairwise (fun a b : α × ℤ => b.2 ≤ a.2) := by
    have hs := @List.sorted_mergeSort (α × ℤ) (fun a b => decide (b.2 ≤ a.2))
      scoreLe_trans scoreLe_total scored
    exact hs.imp fun hab => by simpa using hab
  refine ⟨?_, rfl, List.mergeSort_perm scored _, rankByScore_filter_eq scored, ?_, rfl⟩
  · exact List.Pairwise.sublist (List.take_sublist limit _) hsorted
  · simp only [findMatchesTop, List.length_take, rankByScore, List.length_mergeSort]

/-- C9 witness: concrete rejection of an interval ending before it
starts, concrete rejection of a past start, and concrete acceptance. -/
theorem createBooking_validation_witness :
    createBookingRequest 5 3 0 [] = .error .endNotAfterStart
      ∧ createBookingRequest 3 5 4 [] = .error .startInPast
      ∧ createBookingRequest 3 5 2 [] =
          .ok { startDate := 3, endDate := 5, status := .PENDING } :=
  ⟨(createBooking_validation 5 3 0 []).1 (by norm_num),
   (createBooking_validation 3 5 4 []).2.1 (by norm_num) (by norm_num),
   by
    have h := (createBooking_validation 3 5 2 []).2.2.1 (by norm_num) (by norm_num)
    simpa [hasConflict] using h⟩
